import Mathlib

/-!
Verification development for the 2D car racing demo in
src/practice codes/cargame.py.

Embedding conventions:
- Python float constants (0.15, 0.3, 0.05, 0.95, ...) are embedded as exact
  rationals; the speed, heading and lap-timing logic is pure rational
  arithmetic.
- The position integration (Car.update lines 96-101) goes through
  math.sin and math.cos and only influences the rest of the program through
  the sampled on-track flag and the car bounding rectangle; the game-level
  step therefore takes those two values as per-tick inputs, which also gives
  the universal quantification over track histories that the properties ask
  for.
- The track geometry builder goes through math.hypot, so it is embedded over
  the reals; a Python ZeroDivisionError is made explicit by returning
  Except.error, as is the IndexError caught inside Track.is_on_track, which
  is modeled by Surface.get_at returning none out of bounds.
-/

/-- Window width, cargame.py line 24. -/
def WIDTH : ℤ := 800

/-- Window height, cargame.py line 24. -/
def HEIGHT : ℤ := 600

/-- An RGB color; pygame get_at returns RGBA and the code slices off alpha
with [:3], so only three channels are modeled. -/
structure Color where
  r : ℤ
  g : ℤ
  b : ℤ

/-- Color constant, cargame.py line 28. -/
def WHITE : Color := ⟨255, 255, 255⟩

/-- Color constant, cargame.py line 29. -/
def GRAY : Color := ⟨100, 100, 100⟩

/-- Color constant, cargame.py line 31. -/
def GREEN : Color := ⟨0, 200, 0⟩

/-- Snapshot of the keyboard keys the game reads: arrow keys and WASD. -/
structure Keys where
  up : Bool
  down : Bool
  left : Bool
  right : Bool
  w : Bool
  s : Bool
  a : Bool
  d : Bool

/-- Car state fields used by the verified properties: signed speed and
heading angle in degrees (Car.__init__ lines 63-64). The x, y position
fields are updated through trigonometry (lines 96-101) and reach the rest
of the program only via the sampled on-track flag and the car bounding
rectangle, which the game-level step receives as per-tick inputs. -/
structure Car where
  speed : ℚ
  angle : ℚ

/-- Tuning constant, cargame.py line 65. -/
def max_speed : ℚ := 7

/-- Tuning constant (0.15), cargame.py line 66. -/
def acceleration : ℚ := 3 / 20

/-- Tuning constant (0.3), cargame.py line 67. -/
def deceleration : ℚ := 3 / 10

/-- Tuning constant (0.05), cargame.py line 68. -/
def friction : ℚ := 1 / 20

/-- Tuning constant, cargame.py line 69. -/
def turn_speed : ℚ := 4

/-- Longitudinal speed update of Car.update, lines 76-86: throttle, else
brake, else friction decay toward zero (without a clamp at zero). -/
def speed_after_pedals (keys : Keys) (s : ℚ) : ℚ :=
  if keys.up || keys.w then s + acceleration
  else if keys.down || keys.s then s - deceleration
  else if s > 0 then s - friction
  else if s < 0 then s + friction
  else s

/-- The Python builtin min on two numbers: the first argument on ties. -/
def pymin (a b : ℚ) : ℚ := if a ≤ b then a else b

/-- The Python builtin max on two numbers: the first argument on ties. -/
def pymax (a b : ℚ) : ℚ := if b ≤ a then a else b

/-- Speed clamp of Car.update, line 88:
speed = max(min(speed, max_speed), -max_speed / 2). -/
def clamp_speed (s : ℚ) : ℚ :=
  pymax (pymin s max_speed) (-max_speed / 2)

/-- Car.update, lines 75-94 (speed and heading part): pedals, clamp, then
the two independent steering branches, each gated on the clamped speed
being nonzero and flipping the turn direction with the sign of the speed. -/
def Car.update (keys : Keys) (c : Car) : Car :=
  let speed := clamp_speed (speed_after_pedals keys c.speed)
  let angle1 :=
    if (keys.left || keys.a) ∧ speed ≠ 0 then
      c.angle + turn_speed * (if speed > 0 then 1 else -1)
    else c.angle
  let angle2 :=
    if (keys.right || keys.d) ∧ speed ≠ 0 then
      angle1 + turn_speed * (if speed > 0 then -1 else 1)
    else angle1
  { speed := speed, angle := angle2 }

/-- A pygame rectangle: left, top, width, height. -/
structure Rect where
  x : ℤ
  y : ℤ
  w : ℤ
  h : ℤ

/-- The pygame Rect.colliderect overlap test: the two rectangles share
interior area. -/
def Rect.colliderect (a b : Rect) : Bool :=
  decide (a.x < b.x + b.w ∧ a.y < b.y + b.h ∧ a.x + a.w > b.x ∧ a.y + a.h > b.y)

/-- Track attribute, cargame.py line 110. -/
def road_width : ℤ := 180

/-- Track attribute, cargame.py line 109. -/
def track_color : Color := GRAY

/-- Finish line rectangle, cargame.py line 121:
Rect(WIDTH // 2 - 5, HEIGHT // 4 - road_width // 2, 10, road_width). -/
def finish_line : Rect :=
  ⟨WIDTH / 2 - 5, HEIGHT / 4 - road_width / 2, 10, road_width⟩

/-- Track.check_finish_line_cross, lines 194-195: the current rectangle
overlaps the finish line and the previous one did not. -/
def Track.check_finish_line_cross (rect prev_rect : Rect) : Bool :=
  finish_line.colliderect rect && !(finish_line.colliderect prev_rect)

/-- The color_close helper inside Track.is_on_track, lines 187-189: all
three channel differences strictly below the tolerance. -/
def color_close (c1 c2 : Color) (tol : ℤ) : Bool :=
  decide (|c1.r - c2.r| < tol ∧ |c1.g - c2.g| < tol ∧ |c1.b - c2.b| < tol)

/-- A rendered surface, modeled as the color stored at each pixel. -/
abbrev Surface := ℤ → ℤ → Color

/-- The pygame Surface.get_at read used by Track.is_on_track: it raises
IndexError outside the surface area, modeled as none. -/
def Surface.get_at (surf : Surface) (p : ℤ × ℤ) : Option Color :=
  if 0 ≤ p.1 ∧ p.1 < WIDTH ∧ 0 ≤ p.2 ∧ p.2 < HEIGHT then some (surf p.1 p.2)
  else none

/-- The Python int() conversion on a rational value: truncation toward
zero. -/
def pyInt (q : ℚ) : ℤ := if 0 ≤ q then ⌊q⌋ else ⌈q⌉

/-- Track.is_on_track, lines 185-192: sample the pixel at the truncated
coordinates, classify against the road fill color and the guide-line white,
and fail closed (the caught IndexError branch returns False). -/
def Track.is_on_track (surf : Surface) (x y : ℚ) : Bool :=
  match surf.get_at (pyInt x, pyInt y) with
  | some color => color_close color track_color 30 || color_close color WHITE 30
  | none => false

/-- Game state fields mutated by Game.update, cargame.py lines 201-208. -/
structure GameState where
  car : Car
  start_time : Option ℚ
  lap_time : ℚ
  best_lap_time : Option ℚ
  laps_completed : ℕ
  prev_car_rect : Rect

/-- Per-tick inputs of one Game.update call: the keyboard snapshot, the
sampled on-track flag at the car center, the car bounding rectangle built
from the car position, and the time.time() reading. -/
structure TickIn where
  keys : Keys
  onTrack : Bool
  carRect : Rect
  now : ℚ

/-- The car state after the physics part of Game.update, lines 218-224:
Car.update followed by the 0.95 off-track damping. -/
def Game.carAfterPhysics (t : TickIn) (g : GameState) : Car :=
  let car := Car.update t.keys g.car
  if t.onTrack then car else { car with speed := car.speed * (19 / 20) }

/-- The Python expression best_lap_time or lap, line 232: None and the
float 0.0 are both falsy, so a stored best of exactly 0 is treated as
unset. -/
def pyOrQ (b : Option ℚ) (lap : ℚ) : ℚ :=
  match b with
  | none => lap
  | some v => if v = 0 then lap else v

/-- The guard of the lap branch in Game.update, line 226: a finish-line
crossing with strictly positive current speed. -/
def crossingEvent (t : TickIn) (g : GameState) : Bool :=
  Track.check_finish_line_cross t.carRect g.prev_car_rect &&
    decide ((Game.carAfterPhysics t g).speed > 0)

/-- Game.update, lines 215-237: physics, then the lap state machine, then
the previous-rectangle overwrite. -/
def Game.update (t : TickIn) (g : GameState) : GameState :=
  let car := Game.carAfterPhysics t g
  if crossingEvent t g then
    match g.start_time with
    | none =>
        { g with car := car, start_time := some t.now, prev_car_rect := t.carRect }
    | some t0 =>
        let lap := t.now - t0
        { car := car
          start_time := some t.now
          lap_time := lap
          best_lap_time := some (pymin (pyOrQ g.best_lap_time lap) lap)
          laps_completed := g.laps_completed + 1
          prev_car_rect := t.carRect }
  else
    { g with car := car, prev_car_rect := t.carRect }

/-- Iterated game loop: one Game.update per tick. -/
def runGame (g : GameState) : List TickIn → GameState
  | [] => g
  | t :: ts => runGame (Game.update t g) ts

/-- The lap durations a run records, in order: one duration per crossing
event that finds a non-None start timestamp (line 231, lap = now -
start_time). -/
def runDurations (g : GameState) : List TickIn → List ℚ
  | [] => []
  | t :: ts =>
      (if crossingEvent t g then
        (match g.start_time with
          | some t0 => [t.now - t0]
          | none => [])
      else []) ++ runDurations (Game.update t g) ts

/-- The value m is the minimum of the list l. -/
def IsMinOf (m : ℚ) (l : List ℚ) : Prop :=
  m ∈ l ∧ ∀ d ∈ l, m ≤ d

/-- Relation between the lap bookkeeping fields and the durations recorded
so far. -/
def LapInv (g : GameState) (durs : List ℚ) : Prop :=
  (durs = [] → g.best_lap_time = none) ∧
  (durs ≠ [] → ∃ m, g.best_lap_time = some m ∧ IsMinOf m durs ∧
    durs.getLast? = some g.lap_time)

/-- The math.hypot segment length used by the track builder. -/
noncomputable def pyhypot (dx dy : ℝ) : ℝ := Real.sqrt (dx ^ 2 + dy ^ 2)

/-- The Python expression length or 1 on a float, line 131: 0.0 is falsy
and is replaced by 1. -/
noncomputable def pyOrOne (l : ℝ) : ℝ := if l = 0 then 1 else l

/-- Python float division, which raises ZeroDivisionError on a zero
divisor. -/
noncomputable def pydiv (a b : ℝ) : Except String ℝ :=
  if b = 0 then Except.error "float division by zero" else Except.ok (a / b)

/-- The Python int() conversion on a real value: truncation toward zero. -/
noncomputable def pyIntR (q : ℝ) : ℤ := if 0 ≤ q then ⌊q⌋ else ⌈q⌉

/-- The per-segment boundary offset computation inlined twice in
Track._draw_track (lines 128-140 and 142-152): normalize the segment
direction by the guarded length and offset the current point by the
perpendicular, half a road width to each side. -/
noncomputable def boundary_offset (c n : ℝ × ℝ) :
    Except String ((ℝ × ℝ) × (ℝ × ℝ)) := do
  let dx0 := n.1 - c.1
  let dy0 := n.2 - c.2
  let length := pyOrOne (pyhypot dx0 dy0)
  let dx ← pydiv dx0 length
  let dy ← pydiv dy0 length
  let plx := -dy * ((road_width : ℝ) / 2)
  let ply := dx * ((road_width : ℝ) / 2)
  return ((c.1 + plx, c.2 + ply), (c.1 - plx, c.2 - ply))

/-- Track._draw_dashed_line, lines 165-180: the dash geometry for one
segment. The divisions by the raw, unguarded length are the ones the
degenerate-geometry property is about; the cosmetic line width argument
does not enter any division and is omitted. Output is the list of drawn
dash segments. -/
noncomputable def draw_dashed_line (start_pos end_pos : ℝ × ℝ)
    (dash_length space_length : ℝ) :
    Except String (List ((ℝ × ℝ) × (ℝ × ℝ))) := do
  let x1 := start_pos.1
  let y1 := start_pos.2
  let x2 := end_pos.1
  let y2 := end_pos.2
  let length := pyhypot (x2 - x1) (y2 - y1)
  let dq ← pydiv length (dash_length + space_length)
  let dash_count := pyIntR dq
  let r1 ← pydiv (x2 - x1) length
  let dash_dx := r1 * dash_length
  let r2 ← pydiv (y2 - y1) length
  let dash_dy := r2 * dash_length
  let r3 ← pydiv (x2 - x1) length
  let space_dx := r3 * space_length
  let r4 ← pydiv (y2 - y1) length
  let space_dy := r4 * space_length
  return (List.range dash_count.toNat).map (fun i =>
    let start_x := x1 + (dash_dx + space_dx) * (i : ℝ)
    let start_y := y1 + (dash_dy + space_dy) * (i : ℝ)
    ((start_x, start_y), (start_x + dash_dx, start_y + dash_dy)))

/-- Consecutive point pairs of a polyline, mirroring the loops
for i in range(len(center_path) - 1) over (path[i], path[i + 1]). -/
def pathPairs (p : List (ℝ × ℝ)) : List ((ℝ × ℝ) × (ℝ × ℝ)) := p.zip p.tail

/-- The first loop of Track._draw_track, lines 128-140: boundary offsets
for each consecutive segment. -/
noncomputable def offsetsOf :
    List ((ℝ × ℝ) × (ℝ × ℝ)) → Except String (List ((ℝ × ℝ) × (ℝ × ℝ)))
  | [] => Except.ok []
  | pr :: rest => do
      let v ← boundary_offset pr.1 pr.2
      let vs ← offsetsOf rest
      return v :: vs

/-- The dashed guide-line loop of Track._draw_track, lines 158-161: one
_draw_dashed_line call per consecutive segment, with dash_length 15 and
space_length 10. -/
noncomputable def dashesOf :
    List ((ℝ × ℝ) × (ℝ × ℝ)) → Except String (List (List ((ℝ × ℝ) × (ℝ × ℝ))))
  | [] => Except.ok []
  | pr :: rest => do
      let v ← draw_dashed_line pr.1 pr.2 15 10
      let vs ← dashesOf rest
      return v :: vs

/-- Geometry produced at track-build time: the road ribbon polygon and the
dash segments of the center guide-line. -/
structure TrackRender where
  track_poly : List (ℝ × ℝ)
  dashes : List (List ((ℝ × ℝ) × (ℝ × ℝ)))

/-- Track._draw_track, lines 126-163, on the stored center path (which
already ends with the duplicated first point): segment boundary offsets,
the explicit wrap-around segment from path[-1] to path[0], the ribbon
polygon, and the dashed center guide-line. A heads or getLast on the empty
list would be a Python IndexError; the (0, 0) defaults are never reached
from Track.build on a nonempty path. -/
noncomputable def draw_track (cp : List (ℝ × ℝ)) : Except String TrackRender := do
  let offs ← offsetsOf (pathPairs cp)
  let wrap ← boundary_offset (cp.getLastD (0, 0)) (cp.headD (0, 0))
  let points_left := offs.map Prod.fst ++ [wrap.1]
  let points_right := offs.map Prod.snd ++ [wrap.2]
  let dashes ← dashesOf (pathPairs cp)
  return ⟨points_left ++ points_right.reverse, dashes⟩

/-- Track.__init__, lines 112-119: append the first center-path point and
run _draw_track on the result. -/
noncomputable def Track.build (path : List (ℝ × ℝ)) : Except String TrackRender :=
  draw_track (path ++ [path.headD (0, 0)])

/-- Track construction completes without a ZeroDivisionError. -/
def buildSucceeds (path : List (ℝ × ℝ)) : Prop :=
  ∃ tr, Track.build path = Except.ok tr

/-- The hard-coded center path of Track.__init__, lines 112-117, with
WIDTH = 800 and HEIGHT = 600 substituted. -/
noncomputable def center_path : List (ℝ × ℝ) :=
  [(400, 150), (560, 200), (580, 350), (540, 450),
   (400, 510), (270, 480), (240, 400), (290, 270)]

/-- Keyboard snapshot with no key held. -/
def noKeys : Keys := ⟨false, false, false, false, false, false, false, false⟩

/-- Keyboard snapshot with only the up arrow held. -/
def accelKeys : Keys := ⟨true, false, false, false, false, false, false, false⟩

/-- Keyboard snapshot with only the down arrow held. -/
def brakeKeys : Keys := ⟨false, true, false, false, false, false, false, false⟩

/-- Keyboard snapshot with the up, left and right arrows held. -/
def bothSteerKeys : Keys := ⟨true, false, true, true, false, false, false, false⟩

/-- A car rectangle far away from the finish line. -/
def rectFar : Rect := ⟨0, 0, 64, 32⟩

/-- A car rectangle overlapping the finish line rectangle (395, 60, 10, 180). -/
def rectOnLine : Rect := ⟨390, 100, 64, 32⟩

/-- The initial game state of Game.__init__, lines 201-208, with the lap
fields at their starting values and the car at rest. -/
def g0 : GameState := ⟨⟨0, 0⟩, none, 0, none, 0, rectFar⟩

/-- A mid-run game state with recorded lap data, used to instantiate
hypotheses at a concrete input. -/
def gMidRun : GameState := ⟨⟨0, 0⟩, some 10, 42, some 9, 3, rectFar⟩

/-- A tick with the throttle held, the car sampled on track, a given car
rectangle and a given clock reading. -/
def tickAccelOn (r : Rect) (now : ℚ) : TickIn := ⟨accelKeys, true, r, now⟩

/-- Tick sequence with three crossing events at clock readings 0, 0 and 5:
the starting-gun crossing, then a zero-duration lap, then a five-second
lap. -/
def cticks : List TickIn :=
  [tickAccelOn rectOnLine 0, tickAccelOn rectFar 0, tickAccelOn rectOnLine 0,
   tickAccelOn rectFar 3, tickAccelOn rectOnLine 5]

/-- Tick sequence with crossing events at clock readings 0 and 5: one
recorded five-second lap. -/
def wticks : List TickIn :=
  [tickAccelOn rectOnLine 0, tickAccelOn rectFar 1, tickAccelOn rectOnLine 5]

/-- Surface filled with the off-road green. -/
def greenSurf : Surface := fun _ _ => GREEN

/-- Surface filled with the road gray. -/
def graySurf : Surface := fun _ _ => GRAY

/-- Surface filled with the guide-line white. -/
def whiteSurf : Surface := fun _ _ => WHITE

/-! Bridge lemmas between the Python-style min and max and the order-theoretic
ones, and basic facts about the speed clamp. -/

theorem pymin_eq_min (a b : ℚ) : pymin a b = min a b := (min_def a b).symm

theorem pymax_eq_max (a b : ℚ) : pymax a b = max a b := by
  unfold pymax
  rcases le_or_lt b a with h | h
  · rw [if_pos h, max_eq_left h]
  · rw [if_neg (not_le.mpr h), max_eq_right h.le]

theorem Car.update_speed (k : Keys) (c : Car) :
    (Car.update k c).speed = clamp_speed (speed_after_pedals k c.speed) := rfl

theorem clamp_speed_range (s : ℚ) :
    -max_speed / 2 ≤ clamp_speed s ∧ clamp_speed s ≤ max_speed := by
  unfold clamp_speed
  rw [pymax_eq_max, pymin_eq_min]
  constructor
  · exact le_max_right _ _
  · apply max_le (min_le_right _ _)
    norm_num [max_speed]

theorem clamp_speed_id (s : ℚ) (h1 : -max_speed / 2 ≤ s) (h2 : s ≤ max_speed) :
    clamp_speed s = s := by
  unfold clamp_speed
  rw [pymax_eq_max, pymin_eq_min, min_eq_left h2, max_eq_left h1]

theorem Game.update_car (t : TickIn) (g : GameState) :
    (Game.update t g).car = Game.carAfterPhysics t g := by
  unfold Game.update
  split
  · cases g.start_time <;> rfl
  · rfl

theorem carAfterPhysics_range (t : TickIn) (g : GameState) :
    -max_speed / 2 ≤ (Game.carAfterPhysics t g).speed ∧
      (Game.carAfterPhysics t g).speed ≤ max_speed := by
  unfold Game.carAfterPhysics
  obtain ⟨h1, h2⟩ := clamp_speed_range (speed_after_pedals t.keys g.car.speed)
  rw [max_speed] at h1 h2 ⊢
  split
  · exact ⟨h1, h2⟩
  · constructor <;> · simp only [Car.update_speed, max_speed] at h1 h2 ⊢; nlinarith

theorem tick_speed_range (t : TickIn) (g : GameState) :
    -max_speed / 2 ≤ (Game.update t g).car.speed ∧
      (Game.update t g).car.speed ≤ max_speed := by
  rw [Game.update_car]
  exact carAfterPhysics_range t g

/-- C1: for every tick sequence, with any key inputs and any on-track or
off-track history, the car speed after each full tick update (kinematics
clamp followed by the 0.95 off-track damping) stays in the range
[-max_speed / 2, max_speed] = [-3.5, 7], provided it starts in that
range. -/
theorem speed_always_in_range (g : GameState) (ts : List TickIn)
    (h1 : -max_speed / 2 ≤ g.car.speed) (h2 : g.car.speed ≤ max_speed) :
    -max_speed / 2 ≤ (runGame g ts).car.speed ∧
      (runGame g ts).car.speed ≤ max_speed := by
  induction ts generalizing g with
  | nil => exact ⟨h1, h2⟩
  | cons t ts ih =>
      show -max_speed / 2 ≤ (runGame (Game.update t g) ts).car.speed ∧ _
      obtain ⟨r1, r2⟩ := tick_speed_range t g
      exact ih (Game.update t g) r1 r2

/-- Witness for C1 at a concrete off-track accelerating tick. -/
theorem speed_always_in_range_witness :
    -max_speed / 2 ≤ (runGame g0 [⟨accelKeys, false, rectFar, 0⟩]).car.speed ∧
      (runGame g0 [⟨accelKeys, false, rectFar, 0⟩]).car.speed ≤ max_speed :=
  speed_always_in_range g0 [⟨accelKeys, false, rectFar, 0⟩]
    (by norm_num [g0, max_speed]) (by norm_num [g0, max_speed])

/-- C9: in a single tick the heading is unchanged whenever the speed at
steering-evaluation time (the clamped post-pedal speed) is zero or no
steer key is held. -/
theorem heading_invariant (k : Keys) (c : Car)
    (h : (Car.update k c).speed = 0 ∨
      ((k.left || k.a) = false ∧ (k.right || k.d) = false)) :
    (Car.update k c).angle = c.angle := by
  rcases h with h | ⟨hl, hr⟩
  · have hs : clamp_speed (speed_after_pedals k c.speed) = 0 := h
    simp [Car.update, hs]
  · simp [Car.update, hl, hr]

/-- Witness for C9: no steer key held, car moving at speed 5. -/
theorem heading_invariant_witness :
    (Car.update noKeys (Car.mk 5 30)).angle = (Car.mk 5 30).angle :=
  heading_invariant noKeys (Car.mk 5 30) (Or.inr (by constructor <;> rfl))

/-- C10: when both steer keys are held on a tick with nonzero evaluated
speed, the two turn contributions cancel exactly and the heading is
unchanged, for every speed and heading. -/
theorem both_steers_cancel (k : Keys) (c : Car)
    (hl : (k.left || k.a) = true) (hr : (k.right || k.d) = true)
    (hs : (Car.update k c).speed ≠ 0) :
    (Car.update k c).angle = c.angle := by
  have hs' : clamp_speed (speed_after_pedals k c.speed) ≠ 0 := hs
  rcases lt_trichotomy (clamp_speed (speed_after_pedals k c.speed)) 0 with h | h | h
  · simp only [Car.update, hl, hr, hs', if_neg (not_lt.mpr h.le), true_and,
      ne_eq, not_false_iff, if_true, if_pos]
    ring
  · exact absurd h hs'
  · simp only [Car.update, hl, hr, hs', if_pos h, true_and,
      ne_eq, not_false_iff, if_true]
    ring

/-- Witness for C10: both steer keys and the throttle held from rest. -/
theorem both_steers_cancel_witness :
    (Car.update bothSteerKeys (Car.mk 0 30)).angle = (Car.mk 0 30).angle :=
  both_steers_cancel bothSteerKeys (Car.mk 0 30) rfl rfl
    (by norm_num [Car.update, speed_after_pedals, clamp_speed, pymin, pymax,
      bothSteerKeys, max_speed, acceleration])

theorem update_lap_fields_of_not_crossing (t : TickIn) (g : GameState)
    (h : crossingEvent t g = false) :
    (Game.update t g).laps_completed = g.laps_completed ∧
    (Game.update t g).lap_time = g.lap_time ∧
    (Game.update t g).best_lap_time = g.best_lap_time ∧
    (Game.update t g).start_time = g.start_time := by
  unfold Game.update
  simp [h]

/-- C2: on a tick where the evaluated speed is not strictly positive, the
lap state machine leaves laps_completed, lap_time, best_lap_time and
start_time unchanged, regardless of the rectangle overlap history; backing
across the finish line never counts. -/
theorem no_reverse_crossing (t : TickIn) (g : GameState)
    (h : (Game.carAfterPhysics t g).speed ≤ 0) :
    (Game.update t g).laps_completed = g.laps_completed ∧
    (Game.update t g).lap_time = g.lap_time ∧
    (Game.update t g).best_lap_time = g.best_lap_time ∧
    (Game.update t g).start_time = g.start_time := by
  apply update_lap_fields_of_not_crossing
  have hns : ¬ ((Game.carAfterPhysics t g).speed > 0) := not_lt.mpr h
  simp [crossingEvent, hns]

/-- Witness for C2: a braking car entering the finish rectangle with speed
-0.3 leaves the recorded lap data of a mid-run state untouched. -/
theorem no_reverse_crossing_witness :
    (Game.update ⟨brakeKeys, true, rectOnLine, 99⟩ gMidRun).laps_completed =
        gMidRun.laps_completed ∧
    (Game.update ⟨brakeKeys, true, rectOnLine, 99⟩ gMidRun).lap_time = gMidRun.lap_time ∧
    (Game.update ⟨brakeKeys, true, rectOnLine, 99⟩ gMidRun).best_lap_time =
        gMidRun.best_lap_time ∧
    (Game.update ⟨brakeKeys, true, rectOnLine, 99⟩ gMidRun).start_time =
        gMidRun.start_time :=
  no_reverse_crossing ⟨brakeKeys, true, rectOnLine, 99⟩ gMidRun
    (by norm_num [Game.carAfterPhysics, Car.update, speed_after_pedals, clamp_speed,
      pymin, pymax, brakeKeys, gMidRun, max_speed, deceleration])

theorem clamp_accel_step (q : ℚ) (hq : 0 ≤ q) :
    clamp_speed (pymin q max_speed + acceleration) =
      pymin (q + acceleration) max_speed := by
  unfold clamp_speed
  simp only [pymax_eq_max, pymin_eq_min]
  unfold acceleration max_speed
  rcases le_total q 7 with h | h
  · rw [min_eq_left h, max_eq_left (le_min (by linarith) (by norm_num))]
  · rw [min_eq_right h, min_eq_right (by norm_num : (7 : ℚ) ≤ 7 + 3 / 20),
      min_eq_right (by linarith : (7 : ℚ) ≤ q + 3 / 20),
      max_eq_left (by norm_num)]

theorem accel_run_speed (ts : List TickIn) (g : GameState) (q : ℚ) (hq : 0 ≤ q)
    (hk : ∀ t ∈ ts, (t.keys.up || t.keys.w) = true ∧
      (t.keys.down || t.keys.s) = false ∧ t.onTrack = true)
    (hs : g.car.speed = pymin q max_speed) :
    (runGame g ts).car.speed = pymin (q + acceleration * ts.length) max_speed := by
  induction ts generalizing g q with
  | nil => simpa using hs
  | cons t ts ih =>
      obtain ⟨hup, -, htr⟩ := hk t (List.mem_cons_self t ts)
      have hstep : (Game.update t g).car.speed = pymin (q + acceleration) max_speed := by
        rw [Game.update_car]
        unfold Game.carAfterPhysics
        rw [htr, if_pos rfl, Car.update_speed]
        unfold speed_after_pedals
        rw [hup, if_pos rfl, hs]
        exact clamp_accel_step q hq
      have hq2 : 0 ≤ q + acceleration := by
        unfold acceleration
        linarith
      have := ih (Game.update t g) (q + acceleration) hq2
        (fun u hu => hk u (List.mem_cons_of_mem _ hu)) hstep
      show (runGame (Game.update t g) ts).car.speed = _
      rw [this, List.length_cons]
      congr 1
      push_cast
      ring

/-- C7: starting from rest with the throttle held every tick, never
braking, and the car sampled on track every tick, the speed after N ticks
is min(0.15 * N, 7). -/
theorem accel_speed_formula (g : GameState) (ts : List TickIn)
    (hk : ∀ t ∈ ts, (t.keys.up || t.keys.w) = true ∧
      (t.keys.down || t.keys.s) = false ∧ t.onTrack = true)
    (h0 : g.car.speed = 0) :
    (runGame g ts).car.speed = pymin (acceleration * ts.length) max_speed := by
  have hbase : g.car.speed = pymin 0 max_speed := by
    rw [h0, pymin_eq_min]
    norm_num [max_speed]
  have := accel_run_speed ts g 0 le_rfl hk hbase
  rwa [zero_add] at this

/-- Witness for C7: two accelerating on-track ticks from rest give speed
min(0.3, 7) = 0.3. -/
theorem accel_speed_formula_witness :
    (runGame g0 [tickAccelOn rectFar 0, tickAccelOn rectFar 1]).car.speed =
      pymin (acceleration * ([tickAccelOn rectFar 0, tickAccelOn rectFar 1] : List TickIn).length)
        max_speed :=
  accel_speed_formula g0 [tickAccelOn rectFar 0, tickAccelOn rectFar 1]
    (by intro t ht
        simp only [List.mem_cons, List.mem_singleton, List.not_mem_nil, or_false] at ht
        rcases ht with rfl | rfl <;> exact ⟨rfl, rfl, rfl⟩)
    rfl

/-- C4 counterexample: the source does not clamp the friction decay at
zero. With no key held and starting speed 0.03 (inside one friction step
of zero), the post-tick speed is -0.02: it crosses zero and flips sign
instead of stopping at exactly zero, and one further no-input tick brings
it back to 0.03, an endless sign oscillation. -/
theorem friction_overshoot_counterexample :
    (0 : ℚ) < (Car.mk (3 / 100) 0).speed ∧
    (Car.update noKeys (Car.mk (3 / 100) 0)).speed = -(1 / 50) ∧
    (Car.update noKeys (Car.mk (3 / 100) 0)).speed < 0 ∧
    (Car.update noKeys (Car.update noKeys (Car.mk (3 / 100) 0))).speed = 3 / 100 := by
  norm_num [Car.update, speed_after_pedals, clamp_speed, pymin, pymax, noKeys,
    max_speed, friction]

/-- C4 as amended: on a tick with neither throttle nor brake held and the
starting speed inside the invariant range [-3.5, 7], the speed moves
toward zero by exactly the friction constant 0.05: zero stays exactly
zero, a speed of magnitude at least 0.05 keeps its sign or lands exactly
on zero, but a nonzero speed of magnitude below 0.05 overshoots and comes
out on the far side of zero with the opposite sign (the source has no
clamp at zero), so such speeds oscillate instead of settling. -/
theorem friction_step_behavior (k : Keys) (c : Car)
    (hup : (k.up || k.w) = false) (hdn : (k.down || k.s) = false)
    (hlo : -max_speed / 2 ≤ c.speed) (hhi : c.speed ≤ max_speed) :
    (c.speed = 0 → (Car.update k c).speed = 0) ∧
    (friction ≤ c.speed →
      (Car.update k c).speed = c.speed - friction ∧ 0 ≤ (Car.update k c).speed) ∧
    (c.speed ≤ -friction →
      (Car.update k c).speed = c.speed + friction ∧ (Car.update k c).speed ≤ 0) ∧
    (0 < c.speed → c.speed < friction →
      (Car.update k c).speed = c.speed - friction ∧ (Car.update k c).speed < 0) ∧
    (-friction < c.speed → c.speed < 0 →
      (Car.update k c).speed = c.speed + friction ∧ 0 < (Car.update k c).speed) := by
  have hped : speed_after_pedals k c.speed =
      if c.speed > 0 then c.speed - friction
      else if c.speed < 0 then c.speed + friction
      else c.speed := by
    unfold speed_after_pedals
    rw [hup, hdn]
    simp
  rw [max_speed] at hlo hhi
  rw [friction] at *
  refine ⟨?_, ?_, ?_, ?_, ?_⟩
  · intro h0
    rw [Car.update_speed, hped, h0]
    norm_num [clamp_speed, pymin, pymax, max_speed]
  · intro h
    have hpos : c.speed > 0 := by linarith
    have : speed_after_pedals k c.speed = c.speed - 1 / 20 := by
      rw [hped, if_pos hpos]
    rw [Car.update_speed, this, clamp_speed_id _ (by rw [max_speed]; linarith)
      (by rw [max_speed]; linarith)]
    constructor
    · rfl
    · linarith
  · intro h
    have hneg : c.speed < 0 := by linarith
    have : speed_after_pedals k c.speed = c.speed + 1 / 20 := by
      rw [hped, if_neg (not_lt.mpr hneg.le), if_pos hneg]
    rw [Car.update_speed, this, clamp_speed_id _ (by rw [max_speed]; linarith)
      (by rw [max_speed]; linarith)]
    constructor
    · rfl
    · linarith
  · intro h1 h2
    have : speed_after_pedals k c.speed = c.speed - 1 / 20 := by
      rw [hped, if_pos h1]
    rw [Car.update_speed, this, clamp_speed_id _ (by rw [max_speed]; linarith)
      (by rw [max_speed]; linarith)]
    constructor
    · rfl
    · linarith
  · intro h1 h2
    have : speed_after_pedals k c.speed = c.speed + 1 / 20 := by
      rw [hped, if_neg (not_lt.mpr h2.le), if_pos h2]
    rw [Car.update_speed, this, clamp_speed_id _ (by rw [max_speed]; linarith)
      (by rw [max_speed]; linarith)]
    constructor
    · rfl
    · linarith

/-- Witness for C4 at a concrete coasting car with speed 0.1. -/
theorem friction_step_behavior_witness :
    ((Car.mk (1 / 10) 0).speed = 0 → (Car.update noKeys (Car.mk (1 / 10) 0)).speed = 0) ∧
    (friction ≤ (Car.mk (1 / 10) 0).speed →
      (Car.update noKeys (Car.mk (1 / 10) 0)).speed = (Car.mk (1 / 10) 0).speed - friction ∧
        0 ≤ (Car.update noKeys (Car.mk (1 / 10) 0)).speed) ∧
    ((Car.mk (1 / 10) 0).speed ≤ -friction →
      (Car.update noKeys (Car.mk (1 / 10) 0)).speed = (Car.mk (1 / 10) 0).speed + friction ∧
        (Car.update noKeys (Car.mk (1 / 10) 0)).speed ≤ 0) ∧
    (0 < (Car.mk (1 / 10) 0).speed → (Car.mk (1 / 10) 0).speed < friction →
      (Car.update noKeys (Car.mk (1 / 10) 0)).speed = (Car.mk (1 / 10) 0).speed - friction ∧
        (Car.update noKeys (Car.mk (1 / 10) 0)).speed < 0) ∧
    (-friction < (Car.mk (1 / 10) 0).speed → (Car.mk (1 / 10) 0).speed < 0 →
      (Car.update noKeys (Car.mk (1 / 10) 0)).speed = (Car.mk (1 / 10) 0).speed + friction ∧
        0 < (Car.update noKeys (Car.mk (1 / 10) 0)).speed) :=
  friction_step_behavior noKeys (Car.mk (1 / 10) 0) rfl rfl
    (by norm_num [max_speed]) (by norm_num [max_speed])

theorem runGame_cons (t : TickIn) (ts : List TickIn) (g : GameState) :
    runGame g (t :: ts) = runGame (Game.update t g) ts := rfl

theorem Game.update_cross_some (t : TickIn) (g : GameState) (t0 : ℚ)
    (hc : crossingEvent t g = true) (h0 : g.start_time = some t0) :
    Game.update t g =
      { car := Game.carAfterPhysics t g
        start_time := some t.now
        lap_time := t.now - t0
        best_lap_time := some (pymin (pyOrQ g.best_lap_time (t.now - t0)) (t.now - t0))
        laps_completed := g.laps_completed + 1
        prev_car_rect := t.carRect } := by
  unfold Game.update
  rw [h0]
  simp [hc]

theorem Game.update_cross_none (t : TickIn) (g : GameState)
    (hc : crossingEvent t g = true) (h0 : g.start_time = none) :
    Game.update t g =
      { g with car := Game.carAfterPhysics t g, start_time := some t.now,
               prev_car_rect := t.carRect } := by
  unfold Game.update
  rw [h0]
  simp [hc]

theorem runDurations_cons (t : TickIn) (ts : List TickIn) (g : GameState) :
    runDurations g (t :: ts) =
      (if crossingEvent t g then
        (match g.start_time with
          | some t0 => [t.now - t0]
          | none => [])
      else []) ++ runDurations (Game.update t g) ts := rfl

theorem runDurations_cons_cross_some (t : TickIn) (ts : List TickIn) (g : GameState)
    (t0 : ℚ) (hc : crossingEvent t g = true) (h0 : g.start_time = some t0) :
    runDurations g (t :: ts) = (t.now - t0) :: runDurations (Game.update t g) ts := by
  rw [runDurations_cons, h0]
  simp [hc]

theorem runDurations_cons_cross_none (t : TickIn) (ts : List TickIn) (g : GameState)
    (hc : crossingEvent t g = true) (h0 : g.start_time = none) :
    runDurations g (t :: ts) = runDurations (Game.update t g) ts := by
  rw [runDurations_cons, h0]
  simp [hc]

theorem runDurations_cons_no_cross (t : TickIn) (ts : List TickIn) (g : GameState)
    (hc : crossingEvent t g = false) :
    runDurations g (t :: ts) = runDurations (Game.update t g) ts := by
  rw [runDurations_cons]
  simp [hc]

theorem mem_of_getLast?_eq {l : List ℚ} {a : ℚ} (h : l.getLast? = some a) : a ∈ l := by
  induction l with
  | nil => simp at h
  | cons x xs ih =>
      cases hxs : xs with
      | nil =>
          rw [hxs] at h
          simp only [List.getLast?_singleton, Option.some.injEq] at h
          simp [h]
      | cons y ys =>
          rw [hxs] at h ih
          rw [List.getLast?_cons_cons] at h
          exact List.mem_cons_of_mem _ (ih h)

theorem lapInv_step_no_cross (t : TickIn) (g : GameState) (durs : List ℚ)
    (hinv : LapInv g durs) (hc : crossingEvent t g = false) :
    LapInv (Game.update t g) durs := by
  obtain ⟨-, hlap, hbest, -⟩ := update_lap_fields_of_not_crossing t g hc
  unfold LapInv at hinv ⊢
  rw [hbest, hlap]
  exact hinv

theorem lapInv_step_first_cross (t : TickIn) (g : GameState) (durs : List ℚ)
    (hinv : LapInv g durs) (hc : crossingEvent t g = true)
    (h0 : g.start_time = none) :
    LapInv (Game.update t g) durs := by
  rw [Game.update_cross_none t g hc h0]
  unfold LapInv at hinv ⊢
  exact hinv

theorem lapInv_step_cross (t : TickIn) (g : GameState) (durs : List ℚ) (t0 : ℚ)
    (hinv : LapInv g durs) (hnz : (0 : ℚ) ∉ durs) (hc : crossingEvent t g = true)
    (h0 : g.start_time = some t0) :
    LapInv (Game.update t g) (durs ++ [t.now - t0]) := by
  rw [Game.update_cross_some t g t0 hc h0]
  set lap := t.now - t0 with hlapdef
  constructor
  · intro happ
    exact absurd happ (by simp)
  · intro hne
    by_cases hd : durs = []
    · subst hd
      have hbn : g.best_lap_time = none := hinv.1 rfl
      refine ⟨lap, ?_, ⟨by simp, ?_⟩, by simp⟩
      · simp only [hbn, pyOrQ, pymin]
        rw [if_pos le_rfl]
      · intro d hd'
        simp only [List.nil_append, List.mem_singleton] at hd'
        rw [hd']
    · obtain ⟨m, hb, ⟨hm, hmin⟩, hlast⟩ := hinv.2 hd
      have hmne : m ≠ 0 := fun hz => hnz (hz ▸ hm)
      refine ⟨pymin m lap, ?_, ⟨?_, ?_⟩, by simp⟩
      · simp only [hb, pyOrQ, if_neg hmne]
      · rw [pymin_eq_min]
        rcases min_cases m lap with ⟨he, -⟩ | ⟨he, -⟩
        · rw [he]
          exact List.mem_append_left _ hm
        · rw [he]
          exact List.mem_append_right _ (by simp)
      · intro d hd'
        rw [pymin_eq_min]
        rcases List.mem_append.mp hd' with hmem | hmem
        · exact le_trans (min_le_left _ _) (hmin d hmem)
        · simp only [List.mem_singleton] at hmem
          rw [hmem]
          exact min_le_right _ _

theorem lapInv_run (ts : List TickIn) (g : GameState) (durs : List ℚ)
    (hinv : LapInv g durs) (hnz : (0 : ℚ) ∉ durs)
    (hnzr : (0 : ℚ) ∉ runDurations g ts) :
    LapInv (runGame g ts) (durs ++ runDurations g ts) := by
  induction ts generalizing g durs with
  | nil =>
      unfold runGame runDurations
      simpa using hinv
  | cons t ts ih =>
      rw [runGame_cons]
      by_cases hc : crossingEvent t g = true
      · cases h0 : g.start_time with
        | none =>
            rw [runDurations_cons_cross_none t ts g hc h0] at hnzr ⊢
            exact ih (Game.update t g) durs
              (lapInv_step_first_cross t g durs hinv hc h0) hnz hnzr
        | some t0 =>
            rw [runDurations_cons_cross_some t ts g t0 hc h0] at hnzr ⊢
            have hlapnz : (0 : ℚ) ≠ t.now - t0 := fun h => hnzr (h ▸ List.mem_cons_self _ _)
            have hnz2 : (0 : ℚ) ∉ durs ++ [t.now - t0] := by
              intro hmem
              rcases List.mem_append.mp hmem with hmem | hmem
              · exact hnz hmem
              · simp only [List.mem_singleton] at hmem
                exact hlapnz hmem
            have hnzr2 : (0 : ℚ) ∉ runDurations (Game.update t g) ts :=
              fun h => hnzr (List.mem_cons_of_mem _ h)
            have := ih (Game.update t g) (durs ++ [t.now - t0])
              (lapInv_step_cross t g durs t0 hinv hnz hc h0) hnz2 hnzr2
            rwa [List.append_assoc, List.singleton_append] at this
      · have hc' : crossingEvent t g = false := by
          revert hc
          cases crossingEvent t g <;> simp
        rw [runDurations_cons_no_cross t ts g hc'] at hnzr ⊢
        exact ih (Game.update t g) durs
          (lapInv_step_no_cross t g durs hinv hc') hnz hnzr

/-- C3 as amended: in any run that starts with no recorded best lap, as
long as at least one lap has been recorded and no recorded lap duration is
exactly zero (which holds whenever the clock readings at crossing events
strictly increase), best_lap_time is defined, equals the minimum of all
recorded lap durations, and is at most the last lap time, which is the
last recorded duration. The restriction to nonzero durations is forced by
the Python expression best_lap_time or lap on line 232: a stored best of
exactly 0.0 is falsy and is treated as unset, which breaks the
minimum property, see the counterexample. -/
theorem best_lap_is_min (g : GameState) (ts : List TickIn)
    (hb : g.best_lap_time = none) (hnz : (0 : ℚ) ∉ runDurations g ts)
    (hne : runDurations g ts ≠ []) :
    ∃ m, (runGame g ts).best_lap_time = some m ∧ IsMinOf m (runDurations g ts) ∧
      (runDurations g ts).getLast? = some ((runGame g ts).lap_time) ∧
      m ≤ (runGame g ts).lap_time := by
  have hinv0 : LapInv g [] := ⟨fun _ => hb, fun h => absurd rfl h⟩
  have h := lapInv_run ts g [] hinv0 (by simp) hnz
  rw [List.nil_append] at h
  obtain ⟨m, hbm, hmin, hlast⟩ := h.2 hne
  refine ⟨m, hbm, hmin, hlast, ?_⟩
  exact hmin.2 _ (mem_of_getLast?_eq hlast)

/-- Witness for C3: a run with one recorded five-second lap, whose best
lap is five seconds. -/
theorem best_lap_is_min_witness :
    (0 : ℚ) ∉ runDurations g0 wticks ∧
    (∃ m, (runGame g0 wticks).best_lap_time = some m ∧
      IsMinOf m (runDurations g0 wticks) ∧
      (runDurations g0 wticks).getLast? = some ((runGame g0 wticks).lap_time) ∧
      m ≤ (runGame g0 wticks).lap_time) := by
  have hdurs : runDurations g0 wticks = [5] := by
    norm_num [runDurations, runGame, Game.update, Game.carAfterPhysics, crossingEvent,
      Track.check_finish_line_cross, Rect.colliderect, Car.update, speed_after_pedals,
      clamp_speed, pymin, pymax, pyOrQ, g0, wticks, tickAccelOn, accelKeys, rectFar,
      rectOnLine, finish_line, WIDTH, HEIGHT, road_width, max_speed, acceleration,
      deceleration, friction, turn_speed]
  constructor
  · rw [hdurs]
    norm_num
  · exact best_lap_is_min g0 wticks rfl (by rw [hdurs]; norm_num) (by rw [hdurs]; simp)

/-- C3 counterexample: with crossing events at clock readings 0, 0 and 5
the run records the lap durations 0 and 5, yet the final best_lap_time is
5, not the minimum 0: the stored best of 0.0 is falsy in the expression
best_lap_time or lap, so the zero lap is forgotten. The claim that
best_lap_time always equals the minimum of all recorded durations is
therefore false as stated. -/
theorem best_lap_not_min_counterexample :
    runDurations g0 cticks = [0, 5] ∧
    (runGame g0 cticks).best_lap_time = some 5 ∧
    ¬ IsMinOf 5 (runDurations g0 cticks) := by
  have hdurs : runDurations g0 cticks = [0, 5] := by
    norm_num [runDurations, runGame, Game.update, Game.carAfterPhysics, crossingEvent,
      Track.check_finish_line_cross, Rect.colliderect, Car.update, speed_after_pedals,
      clamp_speed, pymin, pymax, pyOrQ, g0, cticks, tickAccelOn, accelKeys, rectFar,
      rectOnLine, finish_line, WIDTH, HEIGHT, road_width, max_speed, acceleration,
      deceleration, friction, turn_speed]
  refine ⟨hdurs, ?_, ?_⟩
  · norm_num [runDurations, runGame, Game.update, Game.carAfterPhysics, crossingEvent,
      Track.check_finish_line_cross, Rect.colliderect, Car.update, speed_after_pedals,
      clamp_speed, pymin, pymax, pyOrQ, g0, cticks, tickAccelOn, accelKeys, rectFar,
      rectOnLine, finish_line, WIDTH, HEIGHT, road_width, max_speed, acceleration,
      deceleration, friction, turn_speed]
  · rw [hdurs]
    rintro ⟨-, hall⟩
    have := hall 0 (by simp)
    norm_num at this

/-- C6: Track.is_on_track is total (the caught IndexError is the none
branch of Surface.get_at) and fails closed: whenever the truncated pixel
coordinates fall outside the surface bounds 0..WIDTH-1 by 0..HEIGHT-1, it
returns false, for every surface content and every rational input. -/
theorem is_on_track_fails_closed (surf : Surface) (x y : ℚ)
    (h : ¬ (0 ≤ pyInt x ∧ pyInt x < WIDTH ∧ 0 ≤ pyInt y ∧ pyInt y < HEIGHT)) :
    Track.is_on_track surf x y = false := by
  unfold Track.is_on_track Surface.get_at
  rw [if_neg h]

/-- Witness for C6: sampling at x = 900, past the right edge of the
800-wide surface, is off-track even on an all-gray surface. -/
theorem is_on_track_fails_closed_witness :
    Track.is_on_track graySurf 900 0 = false :=
  is_on_track_fails_closed graySurf 900 0 (by decide)

/-- C8: for in-bounds coordinates, Track.is_on_track holds exactly when
the sampled color is within the strict per-channel absolute-difference
tolerance 30 of the road fill (100, 100, 100) or of the guide-line white
(255, 255, 255), on all three channels at once; in particular a sampled
(100, 100, 100) is on track, (255, 255, 255) is on track, and the
off-road green (0, 200, 0) is not. -/
theorem is_on_track_color_iff :
    (∀ (surf : Surface) (x y : ℚ),
      (0 ≤ pyInt x ∧ pyInt x < WIDTH ∧ 0 ≤ pyInt y ∧ pyInt y < HEIGHT) →
      (Track.is_on_track surf x y = true ↔
        ((|(surf (pyInt x) (pyInt y)).r - 100| < 30 ∧
          |(surf (pyInt x) (pyInt y)).g - 100| < 30 ∧
          |(surf (pyInt x) (pyInt y)).b - 100| < 30) ∨
         (|(surf (pyInt x) (pyInt y)).r - 255| < 30 ∧
          |(surf (pyInt x) (pyInt y)).g - 255| < 30 ∧
          |(surf (pyInt x) (pyInt y)).b - 255| < 30)))) ∧
    Track.is_on_track graySurf 10 10 = true ∧
    Track.is_on_track whiteSurf 10 10 = true ∧
    Track.is_on_track greenSurf 10 10 = false := by
  refine ⟨?_, by decide, by decide, by decide⟩
  intro surf x y h
  unfold Track.is_on_track Surface.get_at
  rw [if_pos h]
  simp [color_close, track_color, GRAY, WHITE]

/-- Witness for C8: the universally quantified component applied to the all-gray surface at
the in-bounds pixel (10, 10). -/
theorem is_on_track_color_iff_witness :
    Track.is_on_track graySurf 10 10 = true :=
  (is_on_track_color_iff.1 graySurf 10 10 (by decide)).mpr
    (Or.inl (by norm_num [graySurf, GRAY, pyInt]))

theorem ex_bind_ok {α β : Type} (a : α) (f : α → Except String β) :
    (Except.ok a : Except String α) >>= f = f a := rfl

theorem ex_bind_error {α β : Type} (e : String) (f : α → Except String β) :
    (Except.error e : Except String α) >>= f = Except.error e := rfl

theorem ex_pure {α : Type} (a : α) : (pure a : Except String α) = Except.ok a := rfl

theorem pyOrOne_ne_zero (l : ℝ) : pyOrOne l ≠ 0 := by
  unfold pyOrOne
  split
  · norm_num
  · assumption

theorem pydiv_ok (a b : ℝ) (hb : b ≠ 0) : pydiv a b = Except.ok (a / b) := by
  unfold pydiv
  rw [if_neg hb]

theorem pydiv_zero (a : ℝ) : pydiv a 0 = Except.error "float division by zero" := by
  unfold pydiv
  rw [if_pos rfl]

theorem pyhypot_eq_zero_iff (dx dy : ℝ) : pyhypot dx dy = 0 ↔ dx = 0 ∧ dy = 0 := by
  unfold pyhypot
  rw [Real.sqrt_eq_zero (by positivity)]
  constructor
  · intro h
    have h1 : dx ^ 2 = 0 := le_antisymm (by nlinarith [sq_nonneg dy]) (sq_nonneg dx)
    have h2 : dy ^ 2 = 0 := le_antisymm (by nlinarith [sq_nonneg dx]) (sq_nonneg dy)
    exact ⟨(pow_eq_zero_iff two_ne_zero).mp h1, (pow_eq_zero_iff two_ne_zero).mp h2⟩
  · rintro ⟨rfl, rfl⟩
    norm_num

theorem boundary_offset_ok (c n : ℝ × ℝ) : ∃ v, boundary_offset c n = Except.ok v := by
  rcases hx : boundary_offset c n with e | v
  · exfalso
    simp only [boundary_offset] at hx
    rw [pydiv_ok _ _ (pyOrOne_ne_zero _), ex_bind_ok,
      pydiv_ok _ _ (pyOrOne_ne_zero _), ex_bind_ok, ex_pure] at hx
    cases hx
  · exact ⟨v, rfl⟩

theorem offsetsOf_ok (prs : List ((ℝ × ℝ) × (ℝ × ℝ))) :
    ∃ v, offsetsOf prs = Except.ok v := by
  induction prs with
  | nil => exact ⟨[], rfl⟩
  | cons pr rest ih =>
      obtain ⟨v, hv⟩ := boundary_offset_ok pr.1 pr.2
      obtain ⟨vs, hvs⟩ := ih
      refine ⟨v :: vs, ?_⟩
      simp only [offsetsOf]
      rw [hv, ex_bind_ok, hvs, ex_bind_ok, ex_pure]

theorem draw_dashed_line_error (a b : ℝ × ℝ) (hab : a = b) :
    draw_dashed_line a b 15 10 = Except.error "float division by zero" := by
  subst hab
  simp only [draw_dashed_line, sub_self]
  have hpy : pyhypot 0 0 = 0 := by
    simp [pyhypot]
  rw [hpy, pydiv_ok _ _ (by norm_num : (15 : ℝ) + 10 ≠ 0), ex_bind_ok,
    pydiv_zero, ex_bind_error]

theorem draw_dashed_line_ok (a b : ℝ × ℝ) (hab : a ≠ b) :
    ∃ v, draw_dashed_line a b 15 10 = Except.ok v := by
  have hlen : pyhypot (b.1 - a.1) (b.2 - a.2) ≠ 0 := by
    rw [Ne, pyhypot_eq_zero_iff]
    rintro ⟨h1, h2⟩
    exact hab (Prod.ext (sub_eq_zero.mp h1).symm (sub_eq_zero.mp h2).symm)
  rcases hx : draw_dashed_line a b 15 10 with e | v
  · exfalso
    simp only [draw_dashed_line] at hx
    rw [pydiv_ok _ _ (by norm_num : (15 : ℝ) + 10 ≠ 0), ex_bind_ok,
      pydiv_ok _ _ hlen, ex_bind_ok, pydiv_ok _ _ hlen, ex_bind_ok,
      ex_bind_ok, ex_bind_ok, ex_pure] at hx
    cases hx
  · exact ⟨v, rfl⟩

theorem draw_dashed_line_ok_iff (a b : ℝ × ℝ) :
    (∃ v, draw_dashed_line a b 15 10 = Except.ok v) ↔ a ≠ b := by
  constructor
  · rintro ⟨v, hv⟩ heq
    rw [draw_dashed_line_error a b heq] at hv
    cases hv
  · exact draw_dashed_line_ok a b

theorem dashesOf_ok_iff (prs : List ((ℝ × ℝ) × (ℝ × ℝ))) :
    (∃ v, dashesOf prs = Except.ok v) ↔ ∀ pr ∈ prs, pr.1 ≠ pr.2 := by
  induction prs with
  | nil => exact iff_of_true ⟨[], rfl⟩ (by simp)
  | cons pr rest ih =>
      constructor
      · rintro ⟨v, hv⟩ q hq
        rcases hhead : draw_dashed_line pr.1 pr.2 15 10 with e | w
        · simp only [dashesOf] at hv
          rw [hhead, ex_bind_error] at hv
          cases hv
        · rcases hrest : dashesOf rest with e2 | w2
          · simp only [dashesOf] at hv
            rw [hhead, ex_bind_ok, hrest, ex_bind_error] at hv
            cases hv
          · rcases List.mem_cons.mp hq with rfl | hq2
            · exact (draw_dashed_line_ok_iff q.1 q.2).mp ⟨w, hhead⟩
            · exact ih.mp ⟨w2, hrest⟩ q hq2
      · intro hall
        obtain ⟨w, hw⟩ :=
          draw_dashed_line_ok pr.1 pr.2 (hall pr (List.mem_cons_self _ _))
        obtain ⟨ws, hws⟩ := ih.mpr (fun q hq => hall q (List.mem_cons_of_mem _ hq))
        refine ⟨w :: ws, ?_⟩
        simp only [dashesOf]
        rw [hw, ex_bind_ok, hws, ex_bind_ok, ex_pure]

theorem draw_track_ok_iff (cp : List (ℝ × ℝ)) :
    (∃ tr, draw_track cp = Except.ok tr) ↔ ∀ pr ∈ pathPairs cp, pr.1 ≠ pr.2 := by
  obtain ⟨offs, hoffs⟩ := offsetsOf_ok (pathPairs cp)
  obtain ⟨wrap, hwrap⟩ := boundary_offset_ok (cp.getLastD (0, 0)) (cp.headD (0, 0))
  constructor
  · rintro ⟨tr, htr⟩
    simp only [draw_track] at htr
    rw [hoffs, ex_bind_ok, hwrap, ex_bind_ok] at htr
    rcases hd : dashesOf (pathPairs cp) with e | ds
    · rw [hd, ex_bind_error] at htr
      cases htr
    · exact (dashesOf_ok_iff _).mp ⟨ds, hd⟩
  · intro hall
    obtain ⟨ds, hds⟩ := (dashesOf_ok_iff _).mpr hall
    rcases hx : draw_track cp with e | tr
    · exfalso
      simp only [draw_track] at hx
      rw [hoffs, ex_bind_ok, hwrap, ex_bind_ok, hds, ex_bind_ok, ex_pure] at hx
      cases hx
    · exact ⟨tr, rfl⟩

/-- C5 as amended: the boundary-offset computation of Track._draw_track is
guarded (the length is passed through the or-1 substitution, so every
boundary offset succeeds, degenerate segments included), but the dashed
center guide-line pass is not: _draw_dashed_line divides by the raw
segment length, so track construction completes exactly when every
consecutive segment of the stored closed path (the given path, the closing
segment back to the first point included) has distinct endpoints. A path
with a zero-length consecutive segment makes _draw_dashed_line raise
ZeroDivisionError, see the counterexample; the unit-length substitution
only protects the boundary offsets. -/
theorem track_build_guard :
    (∀ c n : ℝ × ℝ, ∃ v, boundary_offset c n = Except.ok v) ∧
    (∀ path : List (ℝ × ℝ),
      buildSucceeds path ↔
        ∀ pr ∈ pathPairs (path ++ [path.headD (0, 0)]), pr.1 ≠ pr.2) := by
  refine ⟨boundary_offset_ok, ?_⟩
  intro path
  unfold buildSucceeds Track.build
  exact draw_track_ok_iff _

/-- Witness for C5: the hard-coded center path of the game builds
successfully, since all of its consecutive segments, the closing one
included, have distinct endpoints. -/
theorem track_build_guard_witness : buildSucceeds center_path := by
  apply (track_build_guard.2 center_path).mpr
  intro pr hpr
  have hpairs : pathPairs (center_path ++ [center_path.headD (0, 0)]) =
      [((400, 150), (560, 200)), ((560, 200), (580, 350)),
       ((580, 350), (540, 450)), ((540, 450), (400, 510)),
       ((400, 510), (270, 480)), ((270, 480), (240, 400)),
       ((240, 400), (290, 270)), ((290, 270), (400, 150))] := by
    norm_num [center_path, pathPairs]
  rw [hpairs] at hpr
  fin_cases hpr <;> norm_num [Prod.ext_iff]

/-- C5 counterexample: a closed center path with three distinct points in
which one consecutive pair coincides. The boundary pass survives it thanks
to the or-1 guard, but the dashed guide-line pass divides by the zero
segment length, so track construction raises ZeroDivisionError instead of
completing: the claim that every zero-length segment is substituted with a
unit length in all per-segment computations at build time is false. -/
theorem track_build_unguarded_dash :
    ¬ buildSucceeds
      [((0 : ℝ), (0 : ℝ)), ((0 : ℝ), (0 : ℝ)), ((3 : ℝ), (0 : ℝ)), ((0 : ℝ), (4 : ℝ))] := by
  intro h
  unfold buildSucceeds Track.build at h
  have hall := (draw_track_ok_iff _).mp h
  have hmem : ((((0 : ℝ), (0 : ℝ)), ((0 : ℝ), (0 : ℝ))) :
      (ℝ × ℝ) × (ℝ × ℝ)) ∈ pathPairs
        (([((0 : ℝ), (0 : ℝ)), ((0 : ℝ), (0 : ℝ)), ((3 : ℝ), (0 : ℝ)), ((0 : ℝ), (4 : ℝ))]) ++
          [List.headD [((0 : ℝ), (0 : ℝ)), ((0 : ℝ), (0 : ℝ)), ((3 : ℝ), (0 : ℝ)), ((0 : ℝ), (4 : ℝ))] (0, 0)]) := by
    norm_num [pathPairs]
  exact hall _ hmem rfl
